import Mathlib

/-!
Verification development for the asset-management repository.

The definitions below are a shallow embedding of the TypeScript source:
  * `types.ts` (the data model),
  * `App.tsx` (`handleTransaction`, `handleBulkUpdateAssets`, `handleBulkAddAssets`),
  * `AdminView.tsx` (`saveBulkEdit`, the notifications `useEffect`,
    `handleExportCSV`, `handleFileUpload`, `getAllCustomFeatureKeys`),
  * `services/geminiService.ts` (`analyzeAssetHealth`, its `dataSummary`).

Nondeterministic inputs of the code (random ids, `Date.now()`, locale date
formatting, placeholder image URLs) are passed as explicit parameters.
JavaScript strings are modelled by `String`; `undefined`-able fields by
`Option`; `Record<string,string>` by an association list.  JavaScript
truthiness tests on strings (`if (name)`, `category || 'General'`) are
modelled by emptiness tests; the `''` sentinel of the bulk-edit form by
`Option.none`.
-/

namespace AssetMgmt

/-- `AssetStatus` enum from `types.ts`. -/
inductive AssetStatus
  | available
  | borrowed
  | maintenance
  | lost
  deriving DecidableEq, Repr

/-- The string value of each `AssetStatus` enum member in `types.ts`
(`'Available'`, `'Borrowed'`, `'Maintenance'`, `'Lost'`). -/
def AssetStatus.toText : AssetStatus → String
  | .available => "Available"
  | .borrowed => "Borrowed"
  | .maintenance => "Maintenance"
  | .lost => "Lost"

/-- `TransactionType` enum from `types.ts` (`MAINTENANCE_LOG = 'Maintenance'`). -/
inductive TransactionType
  | borrow
  | ret
  | maintenanceLog
  deriving DecidableEq, Repr

/-- `Asset` interface from `types.ts`.  `customFeatures` is the
`Record<string,string>` modelled as an association list in insertion order. -/
structure Asset where
  id : String
  name : String
  category : String
  model : String
  serialNumber : String
  purchaseDate : String
  status : AssetStatus
  currentHolder : Option String
  imageUrl : String
  qrCode : String
  description : Option String
  customFeatures : List (String × String)
  deriving DecidableEq, Repr

/-- `Transaction` interface from `types.ts`; `timestamp` is a millisecond
epoch number (`Date.now()`), modelled as `Int`. -/
structure Transaction where
  id : String
  assetId : String
  assetName : String
  userId : String
  userName : String
  type : TransactionType
  timestamp : Int
  signatureUrl : String
  notes : Option String
  deriving DecidableEq, Repr

/-- The part of the `AppContent` React state the claims are about:
the `assets` and `transactions` collections of `App.tsx`. -/
structure AppState where
  assets : List Asset
  transactions : List Transaction
  deriving DecidableEq, Repr

/-- `handleTransaction` from `App.tsx` (lines 25–56).  The randomly generated
transaction id and user id, and `Date.now()`, are passed in as `txId`,
`mockUserId` and `now`.  If the asset id is not found the handler returns
early and the state is unchanged.  Note that the status written is
`type === BORROW ? BORROWED : AVAILABLE` and the holder written is
`type === BORROW ? userName : undefined`, for every transaction type. -/
def handleTransaction (s : AppState) (assetId : String) (ty : TransactionType)
    (userName : String) (signature : String) (notes : Option String)
    (txId : String) (mockUserId : String) (now : Int) : AppState :=
  match s.assets.find? (fun a => a.id == assetId) with
  | none => s
  | some asset =>
    let newTx : Transaction :=
      { id := txId
        assetId := assetId
        assetName := asset.name
        userId := mockUserId
        userName := userName
        type := ty
        timestamp := now
        signatureUrl := signature
        notes := notes }
    let updatedAssets := s.assets.map (fun a =>
      if a.id == assetId then
        { a with
          status := if ty == TransactionType.borrow then AssetStatus.borrowed
                    else AssetStatus.available
          currentHolder := if ty == TransactionType.borrow then some userName
                           else none }
      else a)
    { assets := updatedAssets, transactions := s.transactions ++ [newTx] }

/-- `handleBulkAddAssets` from `App.tsx` (lines 62–64). -/
def handleBulkAddAssets (newAssets : List Asset) (prev : List Asset) : List Asset :=
  prev ++ newAssets

/-- `handleBulkUpdateAssets` from `App.tsx` (lines 70–75): a `Map` is built
from the update list (later entries with the same id overwrite earlier ones,
hence the lookup takes the last match) and every asset whose id is in the map
is replaced. -/
def handleBulkUpdateAssets (updatedAssets : List Asset) (prev : List Asset) : List Asset :=
  prev.map (fun a =>
    match updatedAssets.reverse.find? (fun u => u.id == a.id) with
    | some u => u
    | none => a)

/-- The bulk-edit form of `AdminView.tsx`: `{ status?: AssetStatus | '',
category?: string }`.  The `''` ("(No Change)") sentinel and an absent field
are both modelled by `none`; a selected value by `some`, so the JavaScript
truthiness guards `if (bulkEditForm.status)` / `if (bulkEditForm.category)`
become `isSome` tests. -/
structure BulkEditForm where
  status : Option AssetStatus
  category : Option String
  deriving DecidableEq, Repr

/-- The update list built by `saveBulkEdit` in `AdminView.tsx`
(lines 216–240): for each selected id, look the asset up; if present, apply
the truthy patch fields and push the copy when at least one field applied. -/
def saveBulkEdit (selectedAssetIds : List String) (assets : List Asset)
    (bulkEditForm : BulkEditForm) : List Asset :=
  selectedAssetIds.filterMap (fun i =>
    match assets.find? (fun a => a.id == i) with
    | none => none
    | some original =>
      let updated :=
        { original with
          status := bulkEditForm.status.getD original.status
          category := bulkEditForm.category.getD original.category }
      let changed := bulkEditForm.status.isSome || bulkEditForm.category.isSome
      if changed then some updated else none)

/-- The complete bulk-edit operation: `saveBulkEdit` computes the update
list and, when it is nonempty, hands it to `onBulkUpdateAssets`
(= `handleBulkUpdateAssets` of `App.tsx`). -/
def bulkEditOp (s : AppState) (selectedAssetIds : List String)
    (bulkEditForm : BulkEditForm) : AppState :=
  let updates := saveBulkEdit selectedAssetIds s.assets bulkEditForm
  if updates.length > 0 then
    { s with assets := handleBulkUpdateAssets updates s.assets }
  else s

/-- The invariant stated by the spec (§3, §8): `currentHolder` is present
if and only if `status == Borrowed`. -/
def holderInvariant (a : Asset) : Bool :=
  a.currentHolder.isSome == (a.status == AssetStatus.borrowed)

/-- UI language, from the `lang` state of `App.tsx`. -/
inductive Lang
  | zh
  | en
  deriving DecidableEq, Repr

/-- Notification severity (`'warning' | 'critical'` in `AdminView.tsx`). -/
inductive NotifType
  | warning
  | critical
  deriving DecidableEq, Repr

/-- The `Notification` interface local to `AdminView.tsx`. -/
structure Notification where
  id : String
  title : String
  message : String
  type : NotifType
  timestamp : Int
  deriving DecidableEq, Repr

/-- The descending-timestamp sort
`.sort((x, y) => y.timestamp - x.timestamp)` used on the borrow
transactions in the notifications effect of `AdminView.tsx`.
`Array.prototype.sort` with a consistent comparator is modelled by a stable
structural sort. -/
def sortByTimestampDesc (txs : List Transaction) : List Transaction :=
  txs.insertionSort (fun x y => y.timestamp ≤ x.timestamp)

/-- `7 * 24 * 60 * 60 * 1000` from the notifications effect. -/
def sevenDaysMs : Int := 7 * 24 * 60 * 60 * 1000

/-- The critical notification pushed for a Lost asset in the notifications
effect of `AdminView.tsx`. -/
def lostNotification (lang : Lang) (now : Int) (a : Asset) : Notification :=
  { id := "lost-" ++ a.id
    title := if lang == Lang.zh then "资产报失提醒" else "Asset Lost Alert"
    message := a.name ++ " (" ++ a.id ++ ") " ++
      (if lang == Lang.zh then "目前状态为“已丢失”" else "is marked as Lost") ++ "."
    type := NotifType.critical
    timestamp := now }

/-- The warning notification pushed for an overdue Borrowed asset in the
notifications effect of `AdminView.tsx`. -/
def overdueNotification (lang : Lang) (now : Int) (a : Asset)
    (lastTx : Transaction) : Notification :=
  { id := "overdue-" ++ a.id
    title := if lang == Lang.zh then "超期借用提醒" else "Overdue Alert"
    message := a.name ++ " " ++ (if lang == Lang.zh then "已被" else "held by") ++
      " " ++ lastTx.userName ++ " " ++
      (if lang == Lang.zh then "借用超过7天" else "for >7 days") ++ "."
    type := NotifType.warning
    timestamp := now }

/-- The per-Borrowed-asset body of "Check 2" in the notifications effect:
take the head of the descending-timestamp sort of the asset's Borrow
transactions; push a warning when it exists and is strictly older than
seven days. -/
def overdueCheck (transactions : List Transaction) (lang : Lang) (now : Int)
    (a : Asset) : Option Notification :=
  match (sortByTimestampDesc (transactions.filter
      (fun t => t.assetId == a.id && t.type == TransactionType.borrow))).head? with
  | some lastTx =>
    if now - lastTx.timestamp > sevenDaysMs then
      some (overdueNotification lang now a lastTx)
    else none
  | none => none

/-- The notifications `useEffect` of `AdminView.tsx` (lines 83–120) as a pure
function of the current store snapshot, the language and `Date.now()`.  It
rebuilds the whole notification list from scratch: one critical `lost-<id>`
entry per asset in status Lost ("Check 1"), then one warning `overdue-<id>`
entry per Borrowed asset whose most recent Borrow transaction is strictly
older than seven days ("Check 2").  The effect ends with
`setNotifications(newNotifications)`, a full replacement of the previous
notification list — the output never depends on previously derived alerts. -/
def deriveNotifications (assets : List Asset) (transactions : List Transaction)
    (lang : Lang) (now : Int) : List Notification :=
  (assets.filter (fun a => a.status == AssetStatus.lost)).map
      (lostNotification lang now) ++
    (assets.filter (fun a => a.status == AssetStatus.borrowed)).filterMap
      (overdueCheck transactions lang now)

/-! ### CSV import (`handleFileUpload` in `AdminView.tsx`, lines 329–366)

JavaScript single-character `String.prototype.split` is modelled on the
underlying character list: `n` separator occurrences yield `n + 1` parts. -/

/-- Model of JavaScript `split` with a single-character separator,
on character lists. -/
def splitCharList (sep : Char) : List Char → List (List Char)
  | [] => [[]]
  | c :: cs =>
    let rest := splitCharList sep cs
    if c = sep then [] :: rest
    else
      match rest with
      | [] => [[c]]
      | r :: rs => (c :: r) :: rs

/-- `content.split(sep)` for a one-character separator. -/
def splitStr (sep : Char) (s : String) : List String :=
  (splitCharList sep s.data).map String.mk

/-- `String.prototype.trim`: drop whitespace from both ends. -/
def trimList (l : List Char) : List Char :=
  ((l.dropWhile Char.isWhitespace).reverse.dropWhile Char.isWhitespace).reverse

/-- `s.trim()` on strings. -/
def trimStr (s : String) : String :=
  String.mk (trimList s.data)

/-- The `^"` half of `replace(/^"|"$/g, '')`: drop one leading quote. -/
def stripLeadQuote (l : List Char) : List Char :=
  match l with
  | c :: r => if c = '"' then r else c :: r
  | [] => []

/-- The `"$` half of `replace(/^"|"$/g, '')`: drop one trailing quote. -/
def stripTrailQuote (l : List Char) : List Char :=
  if l.getLast? = some '"' then l.dropLast else l

/-- `s.replace(/^"|"$/g, '')`: remove one surrounding quote on each end. -/
def stripOuterQuotes (s : String) : String :=
  String.mk (stripTrailQuote (stripLeadQuote s.data))

/-- `line.split(',').map(s => s.trim().replace(/^"|"$/g, ''))`. -/
def parseCSVFields (line : String) : List String :=
  (splitStr ',' line).map (fun s => stripOuterQuotes (trimStr s))

/-- One loop iteration of `handleFileUpload`: trim the raw line, skip it when
blank, destructure the first four comma-separated fields into
name/category/model/serialNumber (missing or empty ones fall back to
`'General'`/`'Standard'`/`'N/A'`), skip the row when the name is empty, and
otherwise build the brand-new asset.  The random id `AST-<n>`, the import-day
date string and the random placeholder image are the parameters `freshId`,
`today` and `img`. -/
def rowToAsset (raw : String) (freshId : String) (today : String)
    (img : String) : Option Asset :=
  let line := trimStr raw
  if line.data.isEmpty then none
  else
    let fields := parseCSVFields line
    let name := fields.getD 0 ""
    if name.data.isEmpty then none
    else
      let category := fields.getD 1 ""
      let model := fields.getD 2 ""
      let serialNumber := fields.getD 3 ""
      some
        { id := freshId
          name := name
          category := if category.data.isEmpty then "General" else category
          model := if model.data.isEmpty then "Standard" else model
          serialNumber := if serialNumber.data.isEmpty then "N/A" else serialNumber
          purchaseDate := today
          status := AssetStatus.available
          currentHolder := none
          imageUrl := img
          qrCode := "qr-" ++ freshId
          description := some "CSV Import"
          customFeatures := [] }

/-- The asset list accumulated by `handleFileUpload` from the uploaded file
content: split on `'\n'`, skip the header line (the loop starts at `i = 1`),
and keep every accepted data row.  `freshId`/`imageFor` determinize the
random id and placeholder image of the row at each data-row index. -/
def handleFileUpload (content : String) (freshId : Nat → String)
    (today : String) (imageFor : Nat → String) : List Asset :=
  (((splitStr '\n' content).drop 1).enum).filterMap
    (fun p => rowToAsset p.2 (freshId p.1) today (imageFor p.1))

/-- The state effect of `handleFileUpload`: when at least one row was
accepted, the new assets are committed through `onBulkAddAssets`
(= `handleBulkAddAssets` of `App.tsx`); otherwise nothing happens. -/
def importCSV (s : AppState) (content : String) (freshId : Nat → String)
    (today : String) (imageFor : Nat → String) : AppState :=
  let newAssets := handleFileUpload content freshId today imageFor
  if newAssets.length > 0 then
    { s with assets := handleBulkAddAssets newAssets s.assets }
  else s

/-! ### CSV export (`handleExportCSV` in `AdminView.tsx`, lines 242–275) -/

/-- `Array.prototype.join(sep)`. -/
def joinWith (sep : String) : List String → String
  | [] => ""
  | [x] => x
  | x :: y :: xs => x ++ sep ++ joinWith sep (y :: xs)

/-- The surrounding double quotes the export puts around free-text fields. -/
def quoteField (s : String) : String :=
  "\"" ++ s ++ "\""

/-- `getAllCustomFeatureKeys` from `AdminView.tsx` (lines 145–153): the
distinct custom-feature keys over the asset set (`Set` keeps the first
occurrence) sorted lexicographically by `Array.prototype.sort`. -/
def getAllCustomFeatureKeys (assets : List Asset) : List String :=
  ((assets.flatMap (fun a => a.customFeatures.map Prod.fst)).dedup).insertionSort
    (fun a b => a ≤ b)

/-- `a.customFeatures?.[key] || ''`. -/
def customFeatureValue (a : Asset) (key : String) : String :=
  ((a.customFeatures.find? (fun kv => kv.1 == key)).map Prod.snd).getD ""

/-- One export row of `handleExportCSV`: the nine fixed columns (name, model,
description and the feature values are quoted) followed by one column per
dynamic feature key. -/
def exportRow (featureHeaders : List String) (a : Asset) : List String :=
  [a.id,
   quoteField a.name,
   a.category,
   quoteField a.model,
   a.serialNumber,
   a.status.toText,
   a.currentHolder.getD "",
   a.purchaseDate,
   quoteField (a.description.getD "")] ++
  featureHeaders.map (fun key => quoteField (customFeatureValue a key))

/-- The text content of the file produced by `handleExportCSV` (what follows
the `data:text/csv;charset=utf-8,` scheme of the download URI): a byte-order
marker, the header row — whose translated labels `t('th_id')` … are passed in
as parameters — then one line per exported asset, lines joined by `'\n'` and
columns by `','`. -/
def handleExportCSV (thId thName thCategory thStatus thHolder : String)
    (assets : List Asset) : String :=
  let featureHeaders := getAllCustomFeatureKeys assets
  let headers := [thId, thName, thCategory, "Model", "SN", thStatus, thHolder,
    "Date", "Desc"] ++ featureHeaders
  "\uFEFF" ++ joinWith "," headers ++ "\n" ++
    joinWith "\n" (assets.map (fun a => joinWith "," (exportRow featureHeaders a)))

/-! ### AI summarization snapshot (`analyzeAssetHealth` in
`services/geminiService.ts`, lines 6–47) -/

/-- One entry of `recentTransactions` in the `dataSummary` JSON: the code
keeps `{type, asset: t.assetName, date, notes}` where `date` is the locale
rendering of the timestamp. -/
structure SummaryTx where
  type : TransactionType
  asset : String
  date : String
  notes : Option String
  deriving DecidableEq, Repr

/-- The `dataSummary` snapshot handed to the AI collaborator. -/
structure DataSummary where
  totalAssets : Nat
  statusCounts : AssetStatus → Nat
  recentTransactions : List SummaryTx

/-- `dataSummary` from `analyzeAssetHealth`: `totalAssets` is the asset
count; `statusCounts` is the reduce `acc[curr.status] = (acc[curr.status]
|| 0) + 1`; `recentTransactions` is `transactions.slice(0, 10)` mapped to
`SummaryTx` entries.  The locale date formatting
`new Date(t.timestamp).toLocaleDateString()` is the parameter `fmtDate`. -/
def dataSummary (assets : List Asset) (transactions : List Transaction)
    (fmtDate : Int → String) : DataSummary :=
  { totalAssets := assets.length
    statusCounts := assets.foldl
      (fun acc curr s => if s = curr.status then acc s + 1 else acc s)
      (fun _ => 0)
    recentTransactions := (transactions.take 10).map
      (fun t =>
        { type := t.type
          asset := t.assetName
          date := fmtDate t.timestamp
          notes := t.notes }) }

/-- Written from the spec sentence for C9 (§6): “recentTransactions: last 10
by recency with {type, assetName, date, notes}” — the ten transactions of
maximal timestamp, most recent first.  Used only to compare against the
snapshot the code actually builds. -/
def specLastTenByRecency (transactions : List Transaction)
    (fmtDate : Int → String) : List SummaryTx :=
  ((sortByTimestampDesc transactions).take 10).map
    (fun t =>
      { type := t.type
        asset := t.assetName
        date := fmtDate t.timestamp
        notes := t.notes })

/-- Bool version of “the data row is accepted by the import”: nonblank after
trimming, with a nonempty name field.  Used to state C7. -/
def acceptedRow (raw : String) : Bool :=
  !(trimStr raw).data.isEmpty &&
    !((parseCSVFields (trimStr raw)).getD 0 "").data.isEmpty

/-- Side conditions under which an exported CSV row parses back cleanly on
re-import: the four leading cells contain no comma; the unquoted cells (id,
category) are trim-invariant and carry no surrounding quote of their own;
the whole serialized row is trim-invariant and contains no newline; and the
four documented cells are nonempty (so that the import's
`'General'`/`'Standard'`/`'N/A'` defaults do not kick in). -/
def exportCellsOK (keys : List String) (a : Asset) : Prop :=
  ',' ∉ a.id.data ∧ ',' ∉ a.name.data ∧ ',' ∉ a.category.data ∧
  ',' ∉ a.model.data ∧
  trimList a.id.data = a.id.data ∧ a.id.data.head? ≠ some '"' ∧
  a.id.data.getLast? ≠ some '"' ∧
  trimList a.category.data = a.category.data ∧
  a.category.data.head? ≠ some '"' ∧ a.category.data.getLast? ≠ some '"' ∧
  trimList (joinWith "," (exportRow keys a)).data =
    (joinWith "," (exportRow keys a)).data ∧
  '\n' ∉ (joinWith "," (exportRow keys a)).data ∧
  a.id.data ≠ [] ∧ a.name.data ≠ [] ∧ a.category.data ≠ [] ∧ a.model.data ≠ []

instance (keys : List String) (a : Asset) : Decidable (exportCellsOK keys a) := by
  unfold exportCellsOK
  infer_instance

instance : IsTotal Transaction (fun x y => y.timestamp ≤ x.timestamp) :=
  ⟨fun a b => le_total b.timestamp a.timestamp⟩

instance : IsTrans Transaction (fun x y => y.timestamp ≤ x.timestamp) :=
  ⟨fun _ _ _ hab hbc => le_trans hbc hab⟩

instance : Std.Antisymm (fun a b : Int => a ≤ b) :=
  ⟨fun h1 h2 => le_antisymm h1 h2⟩

/-! ### Concrete sample data used to instantiate the claims -/

/-- A sample asset currently in status Maintenance. -/
def maintAsset : Asset :=
  ⟨"M1", "Projector", "AV", "P100", "SN9", "2024-01-01", AssetStatus.maintenance,
    none, "img", "qr-M1", none, []⟩

/-- A sample asset currently Borrowed by Bob (it satisfies the
holder/status invariant). -/
def borrowedAsset : Asset :=
  ⟨"B1", "Camera", "Camera", "C1", "SN2", "2024-01-01", AssetStatus.borrowed,
    some "Bob", "img", "qr-B1", none, []⟩

/-- A sample asset currently in status Lost. -/
def lostAsset : Asset :=
  ⟨"L1", "Drone", "Drone", "D1", "SN3", "2024-01-01", AssetStatus.lost,
    none, "img", "qr-L1", none, []⟩

/-- Two sample Available assets used by the bulk-edit scenario of §8. -/
def bulkAsset1 : Asset :=
  ⟨"X1", "Laptop A", "Laptop", "LA", "SN4", "2024-01-01", AssetStatus.available,
    none, "img", "qr-X1", none, []⟩

/-- Second sample asset of the bulk-edit scenario. -/
def bulkAsset2 : Asset :=
  ⟨"X2", "Laptop B", "Laptop", "LB", "SN5", "2024-01-01", AssetStatus.available,
    none, "img", "qr-X2", none, []⟩

/-- The asset used for the CSV export/import round trip. -/
def csvAsset : Asset :=
  ⟨"AST-001", "Drone X", "Drone", "V2", "SN1", "2024-01-01",
    AssetStatus.available, none, "img", "qr-AST-001", none, []⟩

/-- A sample Borrow transaction on `borrowedAsset` at epoch instant 0. -/
def sampleBorrowTx : Transaction :=
  ⟨"TX-1", "B1", "Camera", "U-1", "Bob", TransactionType.borrow, 0, "sig", none⟩

/-- One millisecond-resolution day. -/
def dayMs : Int := 24 * 60 * 60 * 1000

/-- A deterministic stand-in for the random id generator of the import. -/
def sampleFreshId : Nat → String := fun i => "AST-" ++ toString i

/-- A deterministic stand-in for the random placeholder image of the
import. -/
def sampleImageFor : Nat → String := fun _ => "https://picsum.photos/400/300"

/-- The file content of the §8 import scenario: a header line followed by
the rows `Drone X,Drone,V2,SN1` — `,BadRow,,` — `Tablet Y,Tablet,T1,SN2`. -/
def sampleCSVContent : String :=
  "name,cat,model,sn\nDrone X,Drone,V2,SN1\n,BadRow,,\nTablet Y,Tablet,T1,SN2"

/-- Eleven transactions appended in chronological order (timestamps 0–10),
on distinct assets, as the store would hold them after eleven lifecycle
calls. -/
def elevenTxs : List Transaction :=
  (List.range 11).map (fun i =>
    ⟨"TX-" ++ toString i, "A" ++ toString i, "Asset " ++ toString i, "U-1",
      "Bob", TransactionType.borrow, (i : Int), "sig", none⟩)

/-! ## Helper lemmas -/

/-- `find?` by id commutes with mapping an id-preserving function. -/
theorem find?_map_of_id_preserving (l : List Asset) (assetId : String)
    (f : Asset → Asset) (hid : ∀ x, (f x).id = x.id) :
    (l.map f).find? (fun x => x.id == assetId) =
      (l.find? (fun x => x.id == assetId)).map f := by
  have hp : ((fun x : Asset => x.id == assetId) ∘ f) =
      (fun x : Asset => x.id == assetId) := by
    funext x
    simp [Function.comp, hid]
  rw [List.find?_map, hp]

/-- Unfolding of `handleTransaction` when the asset id is found. -/
theorem handleTransaction_found (s : AppState) (assetId : String)
    (ty : TransactionType) (userName signature : String) (notes : Option String)
    (txId mockUserId : String) (now : Int) (a : Asset)
    (h : s.assets.find? (fun x => x.id == assetId) = some a) :
    handleTransaction s assetId ty userName signature notes txId mockUserId now =
      { assets := s.assets.map (fun x =>
          if x.id == assetId then
            { x with
              status := if ty == TransactionType.borrow then AssetStatus.borrowed
                        else AssetStatus.available
              currentHolder := if ty == TransactionType.borrow then some userName
                               else none }
          else x)
        transactions := s.transactions ++
          [⟨txId, assetId, a.name, mockUserId, userName, ty, now, signature, notes⟩] } := by
  unfold handleTransaction
  rw [h]

/-! ## C10 -/

/-- C10: invoking the lifecycle transaction operation with an asset id that
is not in the store is a complete no-op — no Transaction is appended and the
asset collection is unchanged, for every transaction type and payload. -/
theorem C10_missing_id_noop (s : AppState) (assetId : String)
    (ty : TransactionType) (userName signature : String) (notes : Option String)
    (txId mockUserId : String) (now : Int)
    (h : s.assets.find? (fun x => x.id == assetId) = none) :
    handleTransaction s assetId ty userName signature notes txId mockUserId now = s := by
  unfold handleTransaction
  rw [h]

/-- Witness for C10: a store holding only `M1`, invoked with the missing id
`Z9`, is returned unchanged. -/
theorem C10_missing_id_noop_witness :
    handleTransaction ⟨[maintAsset], []⟩ "Z9" TransactionType.borrow "Alice" "sig"
        none "TX1" "U1" 5 = ⟨[maintAsset], []⟩ :=
  C10_missing_id_noop ⟨[maintAsset], []⟩ "Z9" TransactionType.borrow "Alice" "sig"
    none "TX1" "U1" 5 (by decide)

/-! ## C1 -/

/-- C1 counterexample: on an asset that is present and in status
Maintenance, a Maintenance-Log transaction does change the status field —
the asset comes out Available, refuting “leaves that asset's status field
unchanged”. -/
theorem C1_counterexample :
    ((handleTransaction ⟨[maintAsset], []⟩ "M1" TransactionType.maintenanceLog
        "Alice" "sig" none "TX1" "U1" 5).assets.map Asset.status) =
      [AssetStatus.available] ∧
    maintAsset.status = AssetStatus.maintenance := by
  decide

/-- C1 (amended): for every asset present in the store, a Maintenance-Log
transaction appends exactly one new Transaction of type Maintenance-Log, but
— like a Return — it sets the asset's status to Available and clears
`currentHolder`; every other field of every asset is unchanged. -/
theorem C1_maintenance_log_amended (s : AppState) (assetId : String)
    (userName signature : String) (notes : Option String)
    (txId mockUserId : String) (now : Int) (a : Asset)
    (h : s.assets.find? (fun x => x.id == assetId) = some a) :
    (handleTransaction s assetId TransactionType.maintenanceLog userName signature
        notes txId mockUserId now).transactions =
      s.transactions ++
        [⟨txId, assetId, a.name, mockUserId, userName,
          TransactionType.maintenanceLog, now, signature, notes⟩] ∧
    (handleTransaction s assetId TransactionType.maintenanceLog userName signature
        notes txId mockUserId now).assets =
      s.assets.map (fun x =>
        if x.id == assetId then
          { x with status := AssetStatus.available, currentHolder := none }
        else x) ∧
    (handleTransaction s assetId TransactionType.maintenanceLog userName signature
        notes txId mockUserId now).assets.find? (fun x => x.id == assetId) =
      some { a with status := AssetStatus.available, currentHolder := none } := by
  rw [handleTransaction_found s assetId _ userName signature notes txId mockUserId now a h]
  refine ⟨rfl, ?_, ?_⟩
  · rfl
  · rw [find?_map_of_id_preserving _ assetId _
      (fun (x : Asset) => by by_cases hx : (x.id == assetId) = true <;> simp [hx]), h]
    have ha := List.find?_some (p := fun (x : Asset) => x.id == assetId) h
    have ha2 : a.id = assetId := by simpa using ha
    simp [ha2]

/-- Witness for the amended C1 on a concrete Maintenance asset. -/
theorem C1_maintenance_log_amended_witness :
    (handleTransaction ⟨[maintAsset], []⟩ "M1" TransactionType.maintenanceLog
        "Alice" "sig" none "TX1" "U1" 5).transactions =
      [] ++ [⟨"TX1", "M1", maintAsset.name, "U1", "Alice",
        TransactionType.maintenanceLog, 5, "sig", none⟩] ∧
    (handleTransaction ⟨[maintAsset], []⟩ "M1" TransactionType.maintenanceLog
        "Alice" "sig" none "TX1" "U1" 5).assets =
      [maintAsset].map (fun x =>
        if x.id == "M1" then
          { x with status := AssetStatus.available, currentHolder := none }
        else x) ∧
    (handleTransaction ⟨[maintAsset], []⟩ "M1" TransactionType.maintenanceLog
        "Alice" "sig" none "TX1" "U1" 5).assets.find? (fun x => x.id == "M1") =
      some { maintAsset with status := AssetStatus.available, currentHolder := none } :=
  C1_maintenance_log_amended ⟨[maintAsset], []⟩ "M1" "Alice" "sig" none "TX1" "U1" 5
    maintAsset (by decide)

/-! ## C3 -/

/-- C3: Borrow on an Available asset sets its status to Borrowed and its
holder to the supplied user name and appends exactly one Transaction of type
Borrow referencing that asset id; Return on a Borrowed asset sets its status
to Available, clears the holder, and appends exactly one Transaction of type
Return referencing that asset id. -/
theorem C3_borrow_return_effects :
    (∀ (s : AppState) (assetId userName signature : String) (notes : Option String)
       (txId mockUserId : String) (now : Int) (a : Asset),
       s.assets.find? (fun x => x.id == assetId) = some a →
       a.status = AssetStatus.available →
       (handleTransaction s assetId TransactionType.borrow userName signature notes
           txId mockUserId now).assets.find? (fun x => x.id == assetId) =
         some { a with status := AssetStatus.borrowed, currentHolder := some userName } ∧
       (handleTransaction s assetId TransactionType.borrow userName signature notes
           txId mockUserId now).transactions =
         s.transactions ++
           [⟨txId, assetId, a.name, mockUserId, userName, TransactionType.borrow,
             now, signature, notes⟩]) ∧
    (∀ (s : AppState) (assetId userName signature : String) (notes : Option String)
       (txId mockUserId : String) (now : Int) (a : Asset),
       s.assets.find? (fun x => x.id == assetId) = some a →
       a.status = AssetStatus.borrowed →
       (handleTransaction s assetId TransactionType.ret userName signature notes
           txId mockUserId now).assets.find? (fun x => x.id == assetId) =
         some { a with status := AssetStatus.available, currentHolder := none } ∧
       (handleTransaction s assetId TransactionType.ret userName signature notes
           txId mockUserId now).transactions =
         s.transactions ++
           [⟨txId, assetId, a.name, mockUserId, userName, TransactionType.ret,
             now, signature, notes⟩]) := by
  constructor
  all_goals {
    intro s assetId userName signature notes txId mockUserId now a h _hstat
    rw [handleTransaction_found s assetId _ userName signature notes txId mockUserId now a h]
    refine ⟨?_, rfl⟩
    rw [find?_map_of_id_preserving _ assetId _
      (fun (x : Asset) => by by_cases hx : (x.id == assetId) = true <;> simp [hx]), h]
    have ha := List.find?_some (p := fun (x : Asset) => x.id == assetId) h
    have ha2 : a.id = assetId := by simpa using ha
    simp [ha2]
  }

/-- Witness for C3: a Borrow on the Available sample asset and a Return on
the Borrowed sample asset, with their exact post-states. -/
theorem C3_borrow_return_effects_witness :
    ((handleTransaction ⟨[csvAsset], []⟩ "AST-001" TransactionType.borrow "Alice"
        "sig" none "TX1" "U1" 5).assets.find? (fun x => x.id == "AST-001") =
      some { csvAsset with status := AssetStatus.borrowed, currentHolder := some "Alice" } ∧
     (handleTransaction ⟨[csvAsset], []⟩ "AST-001" TransactionType.borrow "Alice"
        "sig" none "TX1" "U1" 5).transactions =
      [] ++ [⟨"TX1", "AST-001", csvAsset.name, "U1", "Alice", TransactionType.borrow,
        5, "sig", none⟩]) ∧
    ((handleTransaction ⟨[borrowedAsset], []⟩ "B1" TransactionType.ret "Bob"
        "sig" none "TX2" "U2" 9).assets.find? (fun x => x.id == "B1") =
      some { borrowedAsset with status := AssetStatus.available, currentHolder := none } ∧
     (handleTransaction ⟨[borrowedAsset], []⟩ "B1" TransactionType.ret "Bob"
        "sig" none "TX2" "U2" 9).transactions =
      [] ++ [⟨"TX2", "B1", borrowedAsset.name, "U2", "Bob", TransactionType.ret,
        9, "sig", none⟩]) :=
  ⟨C3_borrow_return_effects.1 ⟨[csvAsset], []⟩ "AST-001" "Alice" "sig" none "TX1"
      "U1" 5 csvAsset (by decide) (by decide),
   C3_borrow_return_effects.2 ⟨[borrowedAsset], []⟩ "B1" "Bob" "sig" none "TX2"
      "U2" 9 borrowedAsset (by decide) (by decide)⟩

/-- The length of a `filterMap` is the count of inputs it keeps. -/
theorem length_filterMap_eq_countP {α β : Type} (f : α → Option β) (l : List α) :
    (l.filterMap f).length = l.countP (fun x => (f x).isSome) := by
  induction l with
  | nil => rfl
  | cons x xs ih =>
    cases hf : f x <;>
      simp [List.filterMap_cons, hf, List.countP_cons, ih, Nat.add_comm]

/-! ## C6 -/

/-- C6: bulk edit applies exactly the fields present in the patch to each
targeted asset that exists in the store, silently skips ids that do not
exist, produces no change set when no patch field is present, and reports
exactly the targeted existing assets as changed; in particular the §8
scenario — three selected ids with patch `{status: Maintenance}`, one id
nonexistent — changes exactly two assets. -/
theorem C6_bulk_edit_semantics :
    (∀ (selectedAssetIds : List String) (assets : List Asset) (form : BulkEditForm),
       (form.status.isSome || form.category.isSome) = true →
       saveBulkEdit selectedAssetIds assets form =
         selectedAssetIds.filterMap (fun i =>
           (assets.find? (fun a => a.id == i)).map (fun original =>
             { original with
               status := form.status.getD original.status
               category := form.category.getD original.category })) ∧
       (saveBulkEdit selectedAssetIds assets form).length =
         (selectedAssetIds.filter
           (fun i => (assets.find? (fun a => a.id == i)).isSome)).length) ∧
    (∀ (selectedAssetIds : List String) (assets : List Asset),
       saveBulkEdit selectedAssetIds assets ⟨none, none⟩ = []) ∧
    (saveBulkEdit ["X1", "X2", "X3"] [bulkAsset1, bulkAsset2]
        ⟨some AssetStatus.maintenance, none⟩).length = 2 := by
  refine ⟨?_, ?_, by decide⟩
  · intro ids assets form hform
    have hmain : saveBulkEdit ids assets form =
        ids.filterMap (fun i =>
          (assets.find? (fun a => a.id == i)).map (fun original =>
            { original with
              status := form.status.getD original.status
              category := form.category.getD original.category })) := by
      unfold saveBulkEdit
      congr 1
      funext i
      cases hf : assets.find? (fun a => a.id == i) with
      | none => simp
      | some original => simp [hform]
    refine ⟨hmain, ?_⟩
    rw [hmain, length_filterMap_eq_countP, List.countP_eq_length_filter]
    refine congrArg List.length (List.filter_congr (fun i _ => ?_))
    cases hf : assets.find? (fun a => a.id == i) <;> simp [hf]
  · intro ids assets
    unfold saveBulkEdit
    rw [List.filterMap_eq_nil_iff]
    intro i _
    cases hf : assets.find? (fun a => a.id == i) <;> simp [hf]

/-- Witness for C6: two targeted ids over a one-asset store (one id
missing), with patch `{status: Lost}`. -/
theorem C6_bulk_edit_semantics_witness :
    saveBulkEdit ["X1", "Z9"] [bulkAsset1] ⟨some AssetStatus.lost, none⟩ =
      ["X1", "Z9"].filterMap (fun i =>
        ([bulkAsset1].find? (fun a => a.id == i)).map (fun original =>
          { original with
            status := (some AssetStatus.lost).getD original.status
            category := (none : Option String).getD original.category })) ∧
    (saveBulkEdit ["X1", "Z9"] [bulkAsset1] ⟨some AssetStatus.lost, none⟩).length =
      (["X1", "Z9"].filter
        (fun i => ([bulkAsset1].find? (fun a => a.id == i)).isSome)).length :=
  C6_bulk_edit_semantics.1 ["X1", "Z9"] [bulkAsset1]
    ⟨some AssetStatus.lost, none⟩ (by decide)

/-! ## C2 -/

/-- Every asset built by the CSV import has status Available, no holder, the
import-day purchase date, the `CSV Import` description, the supplied fresh
id and the placeholder image. -/
theorem rowToAsset_eq_some (raw freshId today img : String) (b : Asset)
    (h : rowToAsset raw freshId today img = some b) :
    b.status = AssetStatus.available ∧ b.currentHolder = none ∧
      b.purchaseDate = today ∧ b.description = some "CSV Import" ∧
      b.id = freshId ∧ b.imageUrl = img := by
  simp only [rowToAsset] at h
  split at h
  · exact absurd h (by simp)
  · split at h
    · exact absurd h (by simp)
    · cases h
      exact ⟨rfl, rfl, rfl, rfl, rfl, rfl⟩

/-- C2 counterexample: bulk edit violates the holder/status invariant — the
Borrowed sample asset satisfies it, but after a bulk status change to
Maintenance its holder is still set while its status is no longer
Borrowed. -/
theorem C2_counterexample :
    ([borrowedAsset].all holderInvariant = true) ∧
    (bulkEditOp ⟨[borrowedAsset], []⟩ ["B1"]
        ⟨some AssetStatus.maintenance, none⟩).assets.all holderInvariant = false := by
  decide

/-- C2 (amended): the holder/status invariant — `currentHolder` set iff
status = Borrowed — is preserved for every asset by every lifecycle
transaction and by CSV import; it is not preserved by bulk edit or direct
asset edit (see the counterexample). -/
theorem C2_amended_invariant :
    (∀ (s : AppState) (assetId : String) (ty : TransactionType)
       (userName signature : String) (notes : Option String)
       (txId mockUserId : String) (now : Int),
       s.assets.all holderInvariant = true →
       (handleTransaction s assetId ty userName signature notes txId mockUserId
         now).assets.all holderInvariant = true) ∧
    (∀ (s : AppState) (content : String) (freshId : Nat → String)
       (today : String) (imageFor : Nat → String),
       s.assets.all holderInvariant = true →
       (importCSV s content freshId today imageFor).assets.all holderInvariant = true) := by
  constructor
  · intro s assetId ty userName signature notes txId mockUserId now hall
    cases hf : s.assets.find? (fun x => x.id == assetId) with
    | none =>
      unfold handleTransaction
      rw [hf]
      exact hall
    | some a =>
      rw [handleTransaction_found s assetId ty userName signature notes txId
        mockUserId now a hf]
      simp only [List.all_eq_true] at hall ⊢
      intro x hx
      rcases List.mem_map.mp hx with ⟨y, hy, rfl⟩
      by_cases hid : (y.id == assetId) = true
      · cases hty : (ty == TransactionType.borrow) <;>
          simp [holderInvariant, hid, hty]
      · simp only [hid, if_false, Bool.false_eq_true, if_neg, reduceIte]
        exact hall y hy
  · intro s content freshId today imageFor hall
    unfold importCSV
    dsimp only
    split
    · simp only [handleBulkAddAssets, List.all_append, Bool.and_eq_true]
      refine ⟨hall, ?_⟩
      simp only [List.all_eq_true]
      intro x hx
      rcases List.mem_filterMap.mp hx with ⟨p, _hp, hsome⟩
      obtain ⟨hstat, hhold, -⟩ := rowToAsset_eq_some _ _ _ _ _ hsome
      simp [holderInvariant, hstat, hhold]
    · exact hall

/-- Witness for the amended C2: a Return on the Borrowed sample asset and a
CSV import on the same store both keep the invariant everywhere. -/
theorem C2_amended_invariant_witness :
    (handleTransaction ⟨[borrowedAsset], []⟩ "B1" TransactionType.ret "Bob" "sig"
        none "TX1" "U1" 5).assets.all holderInvariant = true ∧
    (importCSV ⟨[borrowedAsset], []⟩ sampleCSVContent sampleFreshId "2026-10-12"
        sampleImageFor).assets.all holderInvariant = true :=
  ⟨C2_amended_invariant.1 ⟨[borrowedAsset], []⟩ "B1" TransactionType.ret "Bob"
      "sig" none "TX1" "U1" 5 (by decide),
   C2_amended_invariant.2 ⟨[borrowedAsset], []⟩ sampleCSVContent sampleFreshId
      "2026-10-12" sampleImageFor (by decide)⟩

/-! ## Notification helpers -/

/-- String append is left-cancellative. -/
theorem string_append_left_cancel {p x y : String} (h : p ++ x = p ++ y) :
    x = y := by
  have hd : (p ++ x).data = (p ++ y).data := by rw [h]
  rw [String.data_append, String.data_append] at hd
  have h2 := List.append_cancel_left hd
  exact congrArg String.mk h2

/-- Boolean form: equality tests of strings sharing a literal head reduce to
the tails. -/
theorem beq_append_left (p x y : String) : (p ++ x == p ++ y) = (x == y) := by
  by_cases h : x = y
  · simp [h]
  · have hne : ¬(p ++ x = p ++ y) := fun hc => h (string_append_left_cancel hc)
    simp [h, hne]

/-- Counting matches in a duplicate-free list whose only possible match is
`a` reduces to testing `a`. -/
theorem countP_eq_ite_of_unique {α : Type} (l : List α) (a : α) (f : α → Bool)
    (hnd : l.Nodup) (ha : a ∈ l) (huniq : ∀ b ∈ l, f b = true → b = a) :
    l.countP f = if f a = true then 1 else 0 := by
  induction l with
  | nil => cases ha
  | cons x xs ih =>
    rcases List.mem_cons.mp ha with rfl | hmem
    · have hxs : xs.countP f = 0 := by
        rw [List.countP_eq_zero]
        intro b hb hfb
        have hba := huniq b (List.mem_cons_of_mem _ hb) hfb
        subst hba
        exact (List.nodup_cons.mp hnd).1 hb
      rw [List.countP_cons, hxs, Nat.zero_add]
    · have hx : f x = false := by
        cases hfx : f x
        · rfl
        · exfalso
          have heq := huniq x (List.mem_cons_self x xs) hfx
          subst heq
          exact (List.nodup_cons.mp hnd).1 hmem
      rw [List.countP_cons, hx]
      simp only [Bool.false_eq_true, if_false, Nat.add_zero]
      exact ih (List.nodup_cons.mp hnd).2 hmem
        (fun b hb hfb => huniq b (List.mem_cons_of_mem _ hb) hfb)

/-- The head of the descending-timestamp sort carries the maximal timestamp:
projecting it to its timestamp gives exactly `max?` of all timestamps. -/
theorem head?_sortByTimestampDesc (l : List Transaction) :
    ((sortByTimestampDesc l).head?).map Transaction.timestamp =
      (l.map Transaction.timestamp).max? := by
  have hperm : (sortByTimestampDesc l).Perm l :=
    List.perm_insertionSort (fun x y : Transaction => y.timestamp ≤ x.timestamp) l
  have hsorted : List.Sorted (fun x y : Transaction => y.timestamp ≤ x.timestamp)
      (sortByTimestampDesc l) :=
    List.sorted_insertionSort (fun x y : Transaction => y.timestamp ≤ x.timestamp) l
  cases hs : sortByTimestampDesc l with
  | nil =>
    rw [hs] at hperm
    have hl : l = [] := (List.Perm.eq_nil hperm.symm)
    subst hl
    simp
  | cons tx rest =>
    rw [hs] at hperm hsorted
    have hmax : (l.map Transaction.timestamp).max? = some tx.timestamp := by
      rw [List.max?_eq_some_iff (fun a => le_refl a) (fun a b => max_choice a b)
        (fun _ _ _ => max_le_iff)]
      constructor
      · exact List.mem_map_of_mem Transaction.timestamp
          (hperm.mem_iff.mp (List.mem_cons_self tx rest))
      · intro b hb
        rcases List.mem_map.mp hb with ⟨u, hu, rfl⟩
        rcases List.mem_cons.mp (hperm.mem_iff.mpr hu) with rfl | hurest
        · exact le_refl _
        · exact (List.sorted_cons.mp hsorted).1 u hurest
    rw [hmax]
    simp

/-- An overdue check result is always a warning notification whose key is
`overdue-` followed by the asset id. -/
theorem overdueCheck_eq_some (transactions : List Transaction) (lang : Lang)
    (now : Int) (b : Asset) (n : Notification)
    (h : overdueCheck transactions lang now b = some n) :
    n.type = NotifType.warning ∧ n.id = "overdue-" ++ b.id := by
  unfold overdueCheck at h
  split at h
  · split at h
    · cases h
      exact ⟨rfl, rfl⟩
    · cases h
  · cases h

/-! ## C8 -/

/-- C8: each recomputation of the notification set emits exactly one
critical notification with key `lost-<assetId>` for each Lost asset and
none for a non-Lost asset.  `deriveNotifications` is a pure function of the
store snapshot whose output replaces the previous notification list in
full, so the count is the same on every recompute. -/
theorem C8_lost_notifications (assets : List Asset)
    (transactions : List Transaction) (lang : Lang) (now : Int) (a : Asset)
    (hnd : (assets.map Asset.id).Nodup) (ha : a ∈ assets) :
    (deriveNotifications assets transactions lang now).countP
        (fun n => n.type == NotifType.critical && n.id == "lost-" ++ a.id) =
      if a.status = AssetStatus.lost then 1 else 0 := by
  unfold deriveNotifications
  rw [List.countP_append]
  have hover : ((assets.filter (fun a => a.status == AssetStatus.borrowed)).filterMap
      (overdueCheck transactions lang now)).countP
        (fun n => n.type == NotifType.critical && n.id == "lost-" ++ a.id) = 0 := by
    rw [List.countP_eq_zero]
    intro n hn
    rcases List.mem_filterMap.mp hn with ⟨b, _hb, hsome⟩
    obtain ⟨hw, -⟩ := overdueCheck_eq_some transactions lang now b n hsome
    simp [hw]
  rw [hover, Nat.add_zero, List.countP_map, List.countP_filter]
  have hcount := countP_eq_ite_of_unique assets a
    (fun b => ((fun n => n.type == NotifType.critical && n.id == "lost-" ++ a.id) ∘
        lostNotification lang now) b && (b.status == AssetStatus.lost))
    (List.Nodup.of_map Asset.id hnd) ha ?huniq
  case huniq =>
    intro b hb hfb
    simp only [Function.comp, lostNotification, Bool.and_eq_true,
      beq_append_left] at hfb
    exact List.inj_on_of_nodup_map hnd hb ha (by simpa using hfb.1.2)
  rw [hcount]
  by_cases hstat : a.status = AssetStatus.lost <;>
    simp [hstat, Function.comp, lostNotification]

/-- Witness for C8 on a store with one Lost and one Borrowed asset: the
Lost one gets exactly one critical notification. -/
theorem C8_lost_notifications_witness :
    (deriveNotifications [lostAsset, borrowedAsset] [] Lang.en 0).countP
        (fun n => n.type == NotifType.critical && n.id == "lost-" ++ lostAsset.id) =
      if lostAsset.status = AssetStatus.lost then 1 else 0 :=
  C8_lost_notifications [lostAsset, borrowedAsset] [] Lang.en 0 lostAsset
    (by decide) (by decide)

/-! ## C4 -/

/-- C4: for a Borrowed asset the notification derivation emits exactly one
overdue warning notification precisely when the asset has at least one
Borrow transaction and the maximal Borrow timestamp for its id is strictly
more than seven days before `now`; a Borrowed asset with no Borrow
transaction produces no overdue notification (the `none` branch). -/
theorem C4_overdue_notifications (assets : List Asset)
    (transactions : List Transaction) (lang : Lang) (now : Int) (a : Asset)
    (hnd : (assets.map Asset.id).Nodup) (ha : a ∈ assets)
    (hstat : a.status = AssetStatus.borrowed) :
    (deriveNotifications assets transactions lang now).countP
        (fun n => n.type == NotifType.warning && n.id == "overdue-" ++ a.id) =
      match ((transactions.filter (fun t => t.assetId == a.id &&
          t.type == TransactionType.borrow)).map Transaction.timestamp).max? with
      | some m => if now - m > sevenDaysMs then 1 else 0
      | none => 0 := by
  unfold deriveNotifications
  rw [List.countP_append]
  have hlost : ((assets.filter (fun a => a.status == AssetStatus.lost)).map
      (lostNotification lang now)).countP
        (fun n => n.type == NotifType.warning && n.id == "overdue-" ++ a.id) = 0 := by
    rw [List.countP_eq_zero]
    intro n hn
    rcases List.mem_map.mp hn with ⟨b, _hb, rfl⟩
    simp [lostNotification]
  rw [hlost, Nat.zero_add, List.countP_filterMap, List.countP_filter]
  have hcount := countP_eq_ite_of_unique assets a
    (fun b => (Option.map
        (fun n => n.type == NotifType.warning && n.id == "overdue-" ++ a.id)
        (overdueCheck transactions lang now b)).getD false &&
      (b.status == AssetStatus.borrowed))
    (List.Nodup.of_map Asset.id hnd) ha ?huniq
  case huniq =>
    intro b hb hfb
    rw [Bool.and_eq_true] at hfb
    obtain ⟨hfb1, -⟩ := hfb
    cases hc : overdueCheck transactions lang now b with
    | none => rw [hc] at hfb1; cases hfb1
    | some n =>
      rw [hc] at hfb1
      simp only [Option.map_some', Option.getD_some, Bool.and_eq_true] at hfb1
      obtain ⟨-, hid⟩ := hfb1
      obtain ⟨-, hbid⟩ := overdueCheck_eq_some transactions lang now b n hc
      rw [hbid] at hid
      rw [beq_append_left] at hid
      exact List.inj_on_of_nodup_map hnd hb ha (by simpa using hid)
  rw [hcount]
  have hb' : (a.status == AssetStatus.borrowed) = true := by simp [hstat]
  cases hh : (sortByTimestampDesc (transactions.filter (fun t =>
      t.assetId == a.id && t.type == TransactionType.borrow))).head? with
  | none =>
    have hm := head?_sortByTimestampDesc (transactions.filter (fun t =>
      t.assetId == a.id && t.type == TransactionType.borrow))
    rw [hh] at hm
    rw [← hm]
    have hoc : overdueCheck transactions lang now a = none := by
      unfold overdueCheck
      rw [hh]
    simp [hoc]
  | some tx =>
    have hm := head?_sortByTimestampDesc (transactions.filter (fun t =>
      t.assetId == a.id && t.type == TransactionType.borrow))
    rw [hh] at hm
    rw [← hm]
    have hoc : overdueCheck transactions lang now a =
        if now - tx.timestamp > sevenDaysMs then
          some (overdueNotification lang now a tx) else none := by
      unfold overdueCheck
      rw [hh]
    by_cases hcond : now - tx.timestamp > sevenDaysMs
    · simp [hoc, hcond, hb', overdueNotification]
    · simp [hoc, hcond, hb']

/-- Witness for C4: the Borrowed sample asset with its Borrow transaction at
instant 0, checked eight days later, yields exactly one warning. -/
theorem C4_overdue_notifications_witness :
    (deriveNotifications [borrowedAsset] [sampleBorrowTx] Lang.en (8 * dayMs)).countP
        (fun n => n.type == NotifType.warning && n.id == "overdue-" ++ borrowedAsset.id) =
      1 := by
  rw [C4_overdue_notifications [borrowedAsset] [sampleBorrowTx] Lang.en (8 * dayMs)
    borrowedAsset (by decide) (by decide) rfl]
  decide

/-! ## C9 -/

/-- The status-count reduce of `dataSummary` counts the assets of each
status (starting from the all-zero accumulator of the JavaScript reduce). -/
theorem statusCounts_foldl (assets : List Asset) (st : AssetStatus)
    (base : AssetStatus → Nat) :
    (assets.foldl (fun acc curr s => if s = curr.status then acc s + 1 else acc s)
        base) st = base st + assets.countP (fun a => a.status == st) := by
  induction assets generalizing base with
  | nil => simp
  | cons x xs ih =>
    rw [List.foldl_cons, ih, List.countP_cons]
    by_cases h : st = x.status
    · simp only [if_pos h, h, beq_self_eq_true, if_true]
      omega
    · have h2 : (x.status == st) = false := by
        simp [beq_eq_false_iff_ne]
        exact fun hc => h hc.symm
      simp only [if_neg h, h2, Bool.false_eq_true, if_false]
      omega

/-- C9 counterexample: with eleven transactions appended in chronological
order, the snapshot keeps `transactions.slice(0, 10)` — the ten OLDEST
entries — whereas the spec's “last 10 by recency” keeps the ten newest; the
most recent transaction (`Asset 10`) is missing from the snapshot. -/
theorem C9_counterexample :
    ((dataSummary [] elevenTxs (fun _ => "d")).recentTransactions.map
        SummaryTx.asset =
      ["Asset 0", "Asset 1", "Asset 2", "Asset 3", "Asset 4", "Asset 5",
        "Asset 6", "Asset 7", "Asset 8", "Asset 9"]) ∧
    ((specLastTenByRecency elevenTxs (fun _ => "d")).map SummaryTx.asset =
      ["Asset 10", "Asset 9", "Asset 8", "Asset 7", "Asset 6", "Asset 5",
        "Asset 4", "Asset 3", "Asset 2", "Asset 1"]) ∧
    (dataSummary [] elevenTxs (fun _ => "d")).recentTransactions ≠
      specLastTenByRecency elevenTxs (fun _ => "d") := by
  decide

/-- C9 (amended): the snapshot handed to the AI collaborator carries
`totalAssets` equal to the number of assets, `statusCounts` mapping every
status to its asset count, and `recentTransactions` equal to the FIRST ten
entries of the stored transaction list (the ten oldest, since transactions
are appended in creation order) projected to `{type, asset, date, notes}` —
not the last ten by recency. -/
theorem C9_snapshot_amended (assets : List Asset)
    (transactions : List Transaction) (fmtDate : Int → String) :
    (dataSummary assets transactions fmtDate).totalAssets = assets.length ∧
    (∀ st, (dataSummary assets transactions fmtDate).statusCounts st =
      assets.countP (fun a => a.status == st)) ∧
    (dataSummary assets transactions fmtDate).recentTransactions =
      (transactions.take 10).map (fun t =>
        ⟨t.type, t.assetName, fmtDate t.timestamp, t.notes⟩) := by
  refine ⟨rfl, ?_, rfl⟩
  intro st
  have h := statusCounts_foldl assets st (fun _ => 0)
  simpa using h

/-! ## C7 -/

/-- Whether a data row is accepted by the import is independent of the
generated id, the import date and the image: it is `acceptedRow`. -/
theorem rowToAsset_isSome (raw freshId today img : String) :
    (rowToAsset raw freshId today img).isSome = acceptedRow raw := by
  simp only [rowToAsset, acceptedRow, List.getD_eq_getElem?_getD]
  by_cases h1 : (trimStr raw).data.isEmpty = true
  · simp [h1]
  · by_cases h2 : (((parseCSVFields (trimStr raw))[0]?).getD "").data = []
    · simp [h1, h2, List.isEmpty_iff]
    · simp [h1, h2, List.isEmpty_iff]

/-- Counting by a projection-of-the-entry predicate over `enumFrom` equals
counting over the underlying list. -/
theorem countP_enumFrom {α : Type} (q : α → Bool) :
    ∀ (n : Nat) (l : List α),
      (List.enumFrom n l).countP (fun p => q p.2) = l.countP q := by
  intro n l
  induction l generalizing n with
  | nil => rfl
  | cons x xs ih =>
    rw [List.enumFrom_cons, List.countP_cons, List.countP_cons, ih]

/-- C7: the import skips the first (header) line; each data row yields
exactly one brand-new asset precisely when its name field is nonempty after
trimming and quote-stripping (`acceptedRow`) — blank-name and malformed
rows are skipped without aborting the batch; every produced asset is
Available, dated at the import instant, holderless and described as a CSV
import; and the three-row §8 scenario yields exactly the two assets
`Drone X` and `Tablet Y`. -/
theorem C7_import_semantics :
    (∀ (content : String) (freshId : Nat → String) (today : String)
       (imageFor : Nat → String),
       ((handleFileUpload content freshId today imageFor).all (fun a =>
           a.status == AssetStatus.available && a.purchaseDate == today &&
             a.currentHolder == none && a.description == some "CSV Import")) =
         true ∧
       (handleFileUpload content freshId today imageFor).length =
         ((splitStr '\n' content).drop 1).countP acceptedRow) ∧
    (handleFileUpload sampleCSVContent sampleFreshId "2026-10-12"
        sampleImageFor).map Asset.name = ["Drone X", "Tablet Y"] := by
  refine ⟨?_, by decide⟩
  intro content freshId today imageFor
  constructor
  · rw [List.all_eq_true]
    intro x hx
    rcases List.mem_filterMap.mp hx with ⟨p, _hp, hsome⟩
    obtain ⟨h1, h2, h3, h4, -, -⟩ := rowToAsset_eq_some _ _ _ _ _ hsome
    simp [h1, h2, h3, h4]
  · unfold handleFileUpload
    rw [length_filterMap_eq_countP]
    have hfun : (fun (p : Nat × String) =>
        (rowToAsset p.2 (freshId p.1) today (imageFor p.1)).isSome) =
          (fun (p : Nat × String) => acceptedRow p.2) := by
      funext p
      exact rowToAsset_isSome p.2 (freshId p.1) today (imageFor p.1)
    rw [hfun, List.enum_eq_enumFrom, countP_enumFrom]

/-! ## C5 split/join/trim helpers -/

/-- Splitting after a separator-free prefix peels that prefix off. -/
theorem splitCharList_append_sep (sep : Char) (ys : List Char) :
    ∀ (xs : List Char), sep ∉ xs →
      splitCharList sep (xs ++ sep :: ys) = xs :: splitCharList sep ys := by
  intro xs hxs
  induction xs with
  | nil => simp [splitCharList]
  | cons c cs ih =>
    have hc : ¬c = sep := fun h => hxs (by rw [h]; exact List.mem_cons_self sep cs)
    have hcs : sep ∉ cs := fun h => hxs (List.mem_cons_of_mem c h)
    rw [List.cons_append]
    simp only [splitCharList, ih hcs, if_neg hc]

/-- Splitting a separator-free list yields a single part. -/
theorem splitCharList_no_sep (sep : Char) :
    ∀ (xs : List Char), sep ∉ xs → splitCharList sep xs = [xs] := by
  intro xs hxs
  induction xs with
  | nil => rfl
  | cons c cs ih =>
    have hc : ¬c = sep := fun h => hxs (by rw [h]; exact List.mem_cons_self sep cs)
    have hcs : sep ∉ cs := fun h => hxs (List.mem_cons_of_mem c h)
    simp only [splitCharList, ih hcs, if_neg hc]

/-- The character data of a two-or-more-element join. -/
theorem data_joinWith_cons (sep x y : String) (ys : List String) :
    (joinWith sep (x :: y :: ys)).data =
      x.data ++ sep.data ++ (joinWith sep (y :: ys)).data := by
  simp only [joinWith, String.data_append]

/-- Splitting a join of separator-free rows recovers the rows. -/
theorem splitCharList_joinWith (sep : Char) (sepStr : String)
    (hs : sepStr.data = [sep]) :
    ∀ (rows : List String), rows ≠ [] → (∀ r ∈ rows, sep ∉ r.data) →
      splitCharList sep (joinWith sepStr rows).data = rows.map String.data := by
  intro rows
  induction rows with
  | nil => intro h; cases h rfl
  | cons x xs ih =>
    intro _ hall
    cases xs with
    | nil =>
      exact splitCharList_no_sep sep x.data (hall x (List.mem_cons_self x []))
    | cons y ys =>
      rw [data_joinWith_cons, hs, List.append_assoc, List.singleton_append,
        splitCharList_append_sep sep _ x.data (hall x (List.mem_cons_self x (y :: ys))),
        ih (by simp) (fun r hr => hall r (List.mem_cons_of_mem x hr))]
      rfl

/-- One peeling step for a comma join whose head cell is comma-free. -/
theorem splitCharList_join_step (x y : String) (ys : List String)
    (hx : ',' ∉ x.data) :
    splitCharList ',' (joinWith "," (x :: y :: ys)).data =
      x.data :: splitCharList ',' (joinWith "," (y :: ys)).data := by
  rw [data_joinWith_cons]
  rw [show ("," : String).data = [','] from rfl]
  rw [List.append_assoc, List.singleton_append]
  exact splitCharList_append_sep ',' _ x.data hx

/-- `dropWhile` is the identity when the head fails the test. -/
theorem dropWhile_eq_self_of_head (p : Char → Bool) (l : List Char)
    (h : ∀ c, l.head? = some c → p c = false) : l.dropWhile p = l := by
  cases l with
  | nil => rfl
  | cons x xs =>
    rw [List.dropWhile_cons, h x rfl]
    simp

/-- Trimming is the identity when neither end is whitespace. -/
theorem trimList_eq_self (l : List Char)
    (h1 : ∀ c, l.head? = some c → c.isWhitespace = false)
    (h2 : ∀ c, l.getLast? = some c → c.isWhitespace = false) :
    trimList l = l := by
  unfold trimList
  rw [dropWhile_eq_self_of_head _ l h1]
  rw [dropWhile_eq_self_of_head _ l.reverse
    (fun c hc => h2 c (by rwa [List.head?_reverse] at hc))]
  exact List.reverse_reverse l

/-- Lead-quote stripping is the identity without a leading quote. -/
theorem stripLeadQuote_eq_self (l : List Char) (h : l.head? ≠ some '"') :
    stripLeadQuote l = l := by
  cases l with
  | nil => rfl
  | cons c cs =>
    have hc : ¬c = '"' := fun hcc => h (by rw [hcc]; rfl)
    simp [stripLeadQuote, hc]

/-- Lead-quote stripping removes a leading quote. -/
theorem stripLeadQuote_cons (r : List Char) : stripLeadQuote ('"' :: r) = r := by
  simp [stripLeadQuote]

/-- Trail-quote stripping is the identity without a trailing quote. -/
theorem stripTrailQuote_eq_self (l : List Char) (h : ¬l.getLast? = some '"') :
    stripTrailQuote l = l := by
  unfold stripTrailQuote
  rw [if_neg h]

/-- Trail-quote stripping removes a trailing quote. -/
theorem stripTrailQuote_concat (l : List Char) :
    stripTrailQuote (l ++ ['"']) = l := by
  unfold stripTrailQuote
  rw [if_pos (List.getLast?_concat l), List.dropLast_concat]

/-- The character data of a quoted cell. -/
theorem data_quoteField (s : String) :
    (quoteField s).data = '"' :: s.data ++ ['"'] := by
  simp only [quoteField, String.data_append]
  rfl

/-- The per-cell parse applied to the data of a string. -/
theorem parseCell_mk (d : List Char) :
    stripOuterQuotes (trimStr (String.mk d)) =
      String.mk (stripTrailQuote (stripLeadQuote (trimList d))) := rfl

/-- A quoted cell comes back unchanged through trim and quote-stripping. -/
theorem parseField_quoted (s : String) :
    stripTrailQuote (stripLeadQuote (trimList ('"' :: s.data ++ ['"']))) =
      s.data := by
  have ht : trimList ('"' :: s.data ++ ['"']) = '"' :: s.data ++ ['"'] := by
    apply trimList_eq_self
    · intro c hc
      rw [List.cons_append, List.head?_cons, Option.some.injEq] at hc
      rw [← hc]
      rfl
    · intro c hc
      rw [List.getLast?_concat, Option.some.injEq] at hc
      rw [← hc]
      rfl
  rw [ht, List.cons_append, stripLeadQuote_cons, stripTrailQuote_concat]

/-- A bare, trim-invariant, quote-free cell comes back unchanged through
trim and quote-stripping. -/
theorem parseField_bare (d : List Char) (ht : trimList d = d)
    (hh : d.head? ≠ some '"') (hl : ¬d.getLast? = some '"') :
    stripTrailQuote (stripLeadQuote (trimList d)) = d := by
  rw [ht, stripLeadQuote_eq_self d hh, stripTrailQuote_eq_self d hl]

/-! ## C5 -/

/-- C5 counterexample: exporting the sample asset (name `Drone X`, category
`Drone`, model `V2`, serial `SN1`) and re-importing the produced file yields
exactly one asset whose name is the exported ID `AST-001` — the documented
name/category/model/serial subset does not survive the round trip; every
field comes back shifted one column to the left. -/
theorem C5_counterexample :
    (handleFileUpload
        (handleExportCSV "ID" "Name" "Category" "Status" "Holder" [csvAsset])
        sampleFreshId "2026-10-12" sampleImageFor).map
      (fun b => (b.name, b.category, b.model, b.serialNumber)) =
      [("AST-001", "Drone X", "Drone", "V2")] ∧
    (csvAsset.name, csvAsset.category, csvAsset.model, csvAsset.serialNumber) =
      ("Drone X", "Drone", "V2", "SN1") := by
  decide

/-- Extract the row-newline-freedom component of `exportCellsOK`. -/
theorem exportCellsOK_row_nl_free {keys : List String} {a : Asset}
    (h : exportCellsOK keys a) :
    '\n' ∉ (joinWith "," (exportRow keys a)).data :=
  h.2.2.2.2.2.2.2.2.2.2.2.1

/-- Re-importing one exported row: the produced asset's name is the exported
asset's id, its category the exported name, its model the exported category
and its serial number the exported model — the columns shift one place,
because the export writes the id first while the import reads the name
first. -/
theorem rowToAsset_exportRow (keys : List String) (a : Asset)
    (fid today img : String) (hOK : exportCellsOK keys a) :
    rowToAsset (joinWith "," (exportRow keys a)) fid today img =
      some ⟨fid, a.id, a.name, a.category, a.model, today,
        AssetStatus.available, none, img, "qr-" ++ fid, some "CSV Import", []⟩ := by
  obtain ⟨hidc, hnamec, hcatc, hmodc, hidt, hidh, hidl, hcatt, hcath, hcatl,
    hrowt, _hrownl, hidne, hnamene, hcatne, hmodne⟩ := hOK
  have hshape : exportRow keys a =
      a.id :: quoteField a.name :: a.category :: quoteField a.model ::
        (a.serialNumber :: a.status.toText :: a.currentHolder.getD "" ::
          a.purchaseDate :: quoteField (a.description.getD "") ::
          keys.map (fun key => quoteField (customFeatureValue a key))) := rfl
  have hqname : ',' ∉ (quoteField a.name).data := by
    rw [data_quoteField]
    simp [hnamec]
  have hqmodel : ',' ∉ (quoteField a.model).data := by
    rw [data_quoteField]
    simp [hmodc]
  have hsplit : splitCharList ',' (joinWith "," (exportRow keys a)).data =
      a.id.data :: (quoteField a.name).data :: a.category.data ::
        (quoteField a.model).data :: splitCharList ','
          (joinWith "," (a.serialNumber :: a.status.toText ::
            a.currentHolder.getD "" :: a.purchaseDate ::
            quoteField (a.description.getD "") ::
            keys.map (fun key => quoteField (customFeatureValue a key)))).data := by
    rw [hshape, splitCharList_join_step _ _ _ hidc,
      splitCharList_join_step _ _ _ hqname,
      splitCharList_join_step _ _ _ hcatc,
      splitCharList_join_step _ _ _ hqmodel]
  have hfields : parseCSVFields (joinWith "," (exportRow keys a)) =
      a.id :: a.name :: a.category :: a.model ::
        ((splitCharList ',' (joinWith "," (a.serialNumber :: a.status.toText ::
          a.currentHolder.getD "" :: a.purchaseDate ::
          quoteField (a.description.getD "") ::
          keys.map (fun key => quoteField (customFeatureValue a key)))).data).map
            (fun d => stripOuterQuotes (trimStr (String.mk d)))) := by
    unfold parseCSVFields splitStr
    rw [hsplit]
    simp only [List.map_cons, List.map_map, parseCell_mk]
    rw [parseField_bare a.id.data hidt hidh hidl,
      data_quoteField a.name, parseField_quoted a.name,
      parseField_bare a.category.data hcatt hcath hcatl,
      data_quoteField a.model, parseField_quoted a.model]
    rfl
  have hline : trimStr (joinWith "," (exportRow keys a)) =
      joinWith "," (exportRow keys a) := by
    unfold trimStr
    rw [hrowt]
  have hne : (joinWith "," (exportRow keys a)).data.isEmpty = false := by
    rw [hshape, data_joinWith_cons]
    rw [show ("," : String).data = [','] from rfl]
    cases a.id.data <;> rfl
  have hidE : a.id.data.isEmpty = false := by
    cases hd : a.id.data with
    | nil => exact absurd hd hidne
    | cons c cs => rfl
  have hnameE : a.name.data.isEmpty = false := by
    cases hd : a.name.data with
    | nil => exact absurd hd hnamene
    | cons c cs => rfl
  have hcatE : a.category.data.isEmpty = false := by
    cases hd : a.category.data with
    | nil => exact absurd hd hcatne
    | cons c cs => rfl
  have hmodE : a.model.data.isEmpty = false := by
    cases hd : a.model.data with
    | nil => exact absurd hd hmodne
    | cons c cs => rfl
  simp only [rowToAsset]
  rw [hline, hfields]
  simp only [hne, Bool.false_eq_true, if_false, List.getD_cons_zero,
    List.getD_cons_succ, hidE, hnameE, hcatE, hmodE]

/-- Importing a list of exported data rows (from any starting row index)
yields one asset per row, whose documented columns are the exported asset's
id/name/category/model. -/
theorem filterMap_rows_exported (keys : List String) (today : String)
    (freshId imageFor : Nat → String) :
    ∀ (n : Nat) (as : List Asset), (∀ a ∈ as, exportCellsOK keys a) →
      (List.filterMap (fun p => rowToAsset p.2 (freshId p.1) today (imageFor p.1))
        (List.enumFrom n (as.map (fun a => joinWith "," (exportRow keys a))))).map
          (fun b => (b.name, b.category, b.model, b.serialNumber)) =
      as.map (fun a => (a.id, a.name, a.category, a.model)) := by
  intro n as
  induction as generalizing n with
  | nil => intro _; rfl
  | cons a rest ih =>
    intro hall
    rw [List.map_cons, List.enumFrom_cons, List.filterMap_cons]
    rw [rowToAsset_exportRow keys a (freshId n) today (imageFor n)
      (hall a (List.mem_cons_self a rest))]
    simp only [List.map_cons]
    rw [ih (n + 1) (fun b hb => hall b (List.mem_cons_of_mem a hb))]

/-- C5 (amended): re-importing an exported CSV does NOT preserve the
documented name/category/model/serial subset; instead every re-imported
asset's fields are shifted one column left against the export — its name is
the exported asset's id, its category the exported name, its model the
exported category and its serial number the exported model (for assets with
cleanly parsing cells and a newline-free header row). -/
theorem C5_roundtrip_amended (thId thName thCategory thStatus thHolder : String)
    (today : String) (freshId imageFor : Nat → String) (assets : List Asset)
    (hheader : '\n' ∉ ("\uFEFF" ++ joinWith ","
        ([thId, thName, thCategory, "Model", "SN", thStatus, thHolder, "Date",
          "Desc"] ++ getAllCustomFeatureKeys assets)).data)
    (hcells : ∀ a ∈ assets, exportCellsOK (getAllCustomFeatureKeys assets) a) :
    (handleFileUpload
        (handleExportCSV thId thName thCategory thStatus thHolder assets)
        freshId today imageFor).map
      (fun b => (b.name, b.category, b.model, b.serialNumber)) =
      assets.map (fun a => (a.id, a.name, a.category, a.model)) := by
  simp only [handleFileUpload, handleExportCSV]
  have hdata : ("\uFEFF" ++ joinWith ","
      ([thId, thName, thCategory, "Model", "SN", thStatus, thHolder, "Date",
        "Desc"] ++ getAllCustomFeatureKeys assets) ++ "\n" ++
      joinWith "\n" (assets.map (fun a =>
        joinWith "," (exportRow (getAllCustomFeatureKeys assets) a)))).data =
      ("\uFEFF" ++ joinWith ","
        ([thId, thName, thCategory, "Model", "SN", thStatus, thHolder, "Date",
          "Desc"] ++ getAllCustomFeatureKeys assets)).data ++ '\n' ::
      (joinWith "\n" (assets.map (fun a =>
        joinWith "," (exportRow (getAllCustomFeatureKeys assets) a)))).data := by
    simp only [String.data_append, List.append_assoc]
    rfl
  cases assets with
  | nil =>
    unfold splitStr
    rw [hdata, splitCharList_append_sep '\n' _ _ hheader]
    rfl
  | cons a0 arest =>
    unfold splitStr
    rw [hdata, splitCharList_append_sep '\n' _ _ hheader]
    rw [splitCharList_joinWith '\n' "\n" rfl
      ((a0 :: arest).map (fun a =>
        joinWith "," (exportRow (getAllCustomFeatureKeys (a0 :: arest)) a)))
      (by simp)
      (by
        intro r hr
        rcases List.mem_map.mp hr with ⟨a, ha, rfl⟩
        exact exportCellsOK_row_nl_free (hcells a ha))]
    rw [List.map_cons]
    simp only [List.drop_succ_cons, List.drop_zero]
    have hrows : ((((a0 :: arest).map (fun a =>
        joinWith "," (exportRow (getAllCustomFeatureKeys (a0 :: arest)) a))).map
          String.data).map String.mk) =
        (a0 :: arest).map (fun a =>
          joinWith "," (exportRow (getAllCustomFeatureKeys (a0 :: arest)) a)) := by
      have hid : (String.mk ∘ String.data) = (id : String → String) :=
        funext (fun s => rfl)
      rw [List.map_map, hid, List.map_id]
    rw [hrows, List.enum_eq_enumFrom]
    exact filterMap_rows_exported (getAllCustomFeatureKeys (a0 :: arest))
      today freshId imageFor 0 (a0 :: arest) hcells

/-- Witness for the amended C5 at the concrete sample asset. -/
theorem C5_roundtrip_amended_witness :
    (handleFileUpload
        (handleExportCSV "ID" "Name" "Category" "Status" "Holder" [csvAsset])
        sampleFreshId "2026-10-12" sampleImageFor).map
      (fun b => (b.name, b.category, b.model, b.serialNumber)) =
      [csvAsset].map (fun a => (a.id, a.name, a.category, a.model)) :=
  C5_roundtrip_amended "ID" "Name" "Category" "Status" "Holder" "2026-10-12"
    sampleFreshId sampleImageFor [csvAsset] (by decide) (by decide)

end AssetMgmt
